import Mathlib

/-!
A shallow embedding of the streaming relay and the client-side conversation
state machine of a password-gated chat application: an Express backend that
relays Anthropic streaming completions as server-sent events, and a React
client that applies those events to per-conversation message lists.
Definitions are translated from the JavaScript source (the active server is
the file with the Postgres store; the client is `App.jsx`); theorems settle
the specification claims about them.
-/

/-! ## JSON values and a parser (model of `JSON.parse` in the relay loop)

The relay's reader loop calls `JSON.parse` on the payload of every
`data: ` line.  We model parsed JSON as an inductive value and implement a
fuel-bounded recursive-descent parser for the JSON fragment the upstream
frames use (objects, arrays, strings without escapes, integers, booleans,
null).  Inputs outside this fragment make the parser fail, which the relay
loop treats exactly like a `JSON.parse` exception: the line is skipped. -/

/-- Left-brace character, written by code point to keep braces out of
character literals. -/
def lbrace : Char := Char.ofNat 123

/-- Right-brace character. -/
def rbrace : Char := Char.ofNat 125

inductive Json where
  | null
  | bool (b : Bool)
  | num (n : Int)
  | str (s : String)
  | arr (elems : List Json)
  | obj (fields : List (String × Json))

/-- Drop leading JSON whitespace. -/
def skipWs : List Char → List Char
  | [] => []
  | c :: cs => if c = ' ' ∨ c = '\t' ∨ c = '\n' ∨ c = '\r' then skipWs cs else c :: cs

/-- Read the body of a quoted string up to the closing quote.  Escape
sequences are outside the modelled fragment and make the parse fail. -/
def parseStringBody : List Char → Option (List Char × List Char)
  | [] => none
  | c :: cs =>
    if c = '"' then some ([], cs)
    else if c = '\\' then none
    else
      match parseStringBody cs with
      | some p => some (c :: p.1, p.2)
      | none => none

/-- Split a maximal run of leading decimal digits. -/
def takeDigits : List Char → List Char × List Char
  | [] => ([], [])
  | c :: cs =>
    if c.isDigit then
      let p := takeDigits cs
      (c :: p.1, p.2)
    else ([], c :: cs)

/-- Numeric value of a digit run. -/
def digitsVal (ds : List Char) : Nat :=
  ds.foldl (fun n c => n * 10 + (c.toNat - 48)) 0

mutual

def parseValue : Nat → List Char → Option (Json × List Char)
  | 0, _ => none
  | Nat.succ fuel, cs0 =>
    match skipWs cs0 with
    | [] => none
    | c :: rest =>
      if c = '"' then
        match parseStringBody rest with
        | some p => some (Json.str (String.mk p.1), p.2)
        | none => none
      else if c = lbrace then
        match skipWs rest with
        | [] => none
        | d :: r2 => if d = rbrace then some (Json.obj [], r2) else parseMembers fuel (d :: r2) []
      else if c = '[' then
        match skipWs rest with
        | [] => none
        | d :: r2 => if d = ']' then some (Json.arr [], r2) else parseElems fuel (d :: r2) []
      else if c = 't' then
        match rest with
        | 'r' :: 'u' :: 'e' :: r2 => some (Json.bool true, r2)
        | _ => none
      else if c = 'f' then
        match rest with
        | 'a' :: 'l' :: 's' :: 'e' :: r2 => some (Json.bool false, r2)
        | _ => none
      else if c = 'n' then
        match rest with
        | 'u' :: 'l' :: 'l' :: r2 => some (Json.null, r2)
        | _ => none
      else if c = '-' then
        match takeDigits rest with
        | ([], _) => none
        | (ds, r2) => some (Json.num (-(digitsVal ds : Int)), r2)
      else if c.isDigit then
        match takeDigits (c :: rest) with
        | ([], _) => none
        | (ds, r2) => some (Json.num (digitsVal ds), r2)
      else none

def parseMembers : Nat → List Char → List (String × Json) → Option (Json × List Char)
  | 0, _, _ => none
  | Nat.succ fuel, cs0, acc =>
    match skipWs cs0 with
    | '"' :: rest =>
      match parseStringBody rest with
      | some kp =>
        match skipWs kp.2 with
        | ':' :: r2 =>
          match parseValue fuel r2 with
          | some vp =>
            match skipWs vp.2 with
            | ',' :: r3 => parseMembers fuel r3 (acc ++ [(String.mk kp.1, vp.1)])
            | d :: r3 =>
              if d = rbrace then some (Json.obj (acc ++ [(String.mk kp.1, vp.1)]), r3) else none
            | [] => none
          | none => none
        | _ => none
      | none => none
    | _ => none

def parseElems : Nat → List Char → List Json → Option (Json × List Char)
  | 0, _, _ => none
  | Nat.succ fuel, cs0, acc =>
    match parseValue fuel cs0 with
    | some vp =>
      match skipWs vp.2 with
      | ',' :: r2 => parseElems fuel r2 (acc ++ [vp.1])
      | ']' :: r2 => some (Json.arr (acc ++ [vp.1]), r2)
      | _ => none
    | none => none

end

/-- Model of `JSON.parse`: parse one value and require only whitespace after
it.  The fuel `s.length + 1` dominates the recursion depth because every
recursive step consumes at least one character. -/
def jsonParse (s : String) : Option Json :=
  match parseValue (s.length + 1) s.data with
  | some p => if skipWs p.2 = [] then some p.1 else none
  | none => none

/-- Field access on a parsed object (`parsed.field` in JavaScript); any
access on a non-object yields `none`, the model of `undefined`. -/
def Json.getField : Json → String → Option Json
  | Json.obj fields, k => fields.lookup k
  | _, _ => none

/-- Field access expecting a string value (`parsed.field === "literal"`
comparisons succeed only on strings). -/
def Json.getStr (j : Json) (k : String) : Option String :=
  match j.getField k with
  | some (Json.str s) => some s
  | _ => none

/-- JavaScript truthiness of a JSON value (`parsed.usage &&` checks). -/
def jsTruthy : Json → Bool
  | Json.null => false
  | Json.bool b => b
  | Json.num n => decide (n ≠ 0)
  | Json.str s => decide (s ≠ "")
  | Json.arr _ => true
  | Json.obj _ => true

/-! ## Relay events and the `POST /api/chat` handler -/

/-- The wire unit the relay emits to the client.  `text` carries the value
of `parsed.delta.text` (`none` models an absent field). -/
inductive RelayEvent where
  | text (payload : Option Json)
  | usage (u : Json)
  | usageStart (u : Json)
  | error (msg : String)
  | done

/-- The `data: ` recognition of the reader loop: `line.startsWith("data: ")`
followed by `line.slice(6)`, fused into one pattern match. -/
def dataPayload (line : String) : Option String :=
  match line.data with
  | 'd' :: 'a' :: 't' :: 'a' :: ':' :: ' ' :: rest => some (String.mk rest)
  | _ => none

/-- One line of the relay's reader loop: skip non-`data: ` lines and the
`[DONE]` sentinel, skip lines whose payload fails to parse, and otherwise
emit the events of the three conditionals in source order. -/
def handleLine (line : String) : List RelayEvent :=
  match dataPayload line with
  | none => []
  | some data =>
    if data = "[DONE]" then []
    else
      match jsonParse data with
      | none => []
      | some parsed =>
        let textEvents :=
          if parsed.getStr "type" = some "content_block_delta"
              ∧ (parsed.getField "delta").bind (fun d => d.getStr "type") = some "text_delta" then
            [RelayEvent.text ((parsed.getField "delta").bind (fun d => d.getField "text"))]
          else []
        let usageEvents :=
          match parsed.getField "usage" with
          | some u =>
            if parsed.getStr "type" = some "message_delta" ∧ jsTruthy u then
              [RelayEvent.usage u]
            else []
          | none => []
        let usageStartEvents :=
          match (parsed.getField "message").bind (fun m => m.getField "usage") with
          | some u =>
            if parsed.getStr "type" = some "message_start" ∧ jsTruthy u then
              [RelayEvent.usageStart u]
            else []
          | none => []
        textEvents ++ usageEvents ++ usageStartEvents

/-- `decoder.decode(value).split("\n")` for one chunk. -/
def splitLines (s : String) : List String :=
  (s.data.splitOn '\n').map String.mk

/-- The events the reader loop emits for one chunk: each line handled
independently, with no buffering of partial lines across chunks. -/
def processChunk (chunk : String) : List RelayEvent :=
  (splitLines chunk).flatMap handleLine

/-- The events of the whole reader loop over a delivered chunk sequence. -/
def relayLoopEvents (chunks : List String) : List RelayEvent :=
  chunks.flatMap processChunk

/-- The upstream outcomes the handler can observe: a thrown fetch error
before any body, a non-success HTTP response carrying an optional provider
message, or a success whose body delivers some chunks and then either ends
cleanly or throws mid-stream. -/
inductive UpstreamResponse where
  | failure (errMsg : String)
  | nonOk (providerMsg : Option String)
  | ok (chunks : List String) (midStreamFailure : Option String)

/-- The full `POST /api/chat` handler after headers are flushed: one
`error` event on a thrown error or non-success response, otherwise the
reader-loop events followed by one `done`, unless the loop throws
mid-stream, in which case the catch emits one `error` instead. -/
def chatHandler : UpstreamResponse → List RelayEvent
  | UpstreamResponse.failure m => [RelayEvent.error m]
  | UpstreamResponse.nonOk pm => [RelayEvent.error (pm.getD "API error")]
  | UpstreamResponse.ok chunks none => relayLoopEvents chunks ++ [RelayEvent.done]
  | UpstreamResponse.ok chunks (some m) => relayLoopEvents chunks ++ [RelayEvent.error m]

/-- Terminal events of the relay stream. -/
def RelayEvent.isTerminal : RelayEvent → Bool
  | RelayEvent.error _ => true
  | RelayEvent.done => true
  | _ => false

/-- A successful upstream exchange: success response, no mid-stream throw. -/
def UpstreamResponse.isSuccess : UpstreamResponse → Bool
  | UpstreamResponse.ok _ none => true
  | _ => false

/-- The message of the single `error` event of a failed exchange (unused on
a successful one). -/
def UpstreamResponse.failureMessage : UpstreamResponse → String
  | UpstreamResponse.failure m => m
  | UpstreamResponse.nonOk pm => pm.getD "API error"
  | UpstreamResponse.ok _ (some m) => m
  | UpstreamResponse.ok _ none => ""

theorem handleLine_not_terminal (line : String) :
    ∀ e ∈ handleLine line, e.isTerminal = false := by
  intro e he
  unfold handleLine at he
  split at he
  · simp at he
  · split at he
    · simp at he
    · split at he
      · simp at he
      · simp only [List.mem_append] at he
        rcases he with (he | he) | he
        · split at he <;> simp_all [RelayEvent.isTerminal]
        · split at he
          · split at he <;> simp_all [RelayEvent.isTerminal]
          · simp at he
        · split at he
          · split at he <;> simp_all [RelayEvent.isTerminal]
          · simp at he

theorem relayLoopEvents_not_terminal (chunks : List String) :
    ∀ e ∈ relayLoopEvents chunks, e.isTerminal = false := by
  intro e he
  simp only [relayLoopEvents, processChunk, List.mem_flatMap] at he
  obtain ⟨c, _, l, _, hel⟩ := he
  exact handleLine_not_terminal l e hel

/-- C1: terminal-event law of the relay.  For every upstream outcome the
emitted event stream is a terminal-free body followed by exactly one
terminal event, which is `done` exactly when the upstream response was
successful and no mid-stream transport failure occurred, and an `error`
carrying the failure message otherwise — never both terminals, never
neither. -/
theorem relay_terminal_event_law (r : UpstreamResponse) :
    (∃ pre, chatHandler r =
        pre ++ [if r.isSuccess then RelayEvent.done else RelayEvent.error r.failureMessage]
      ∧ ∀ e ∈ pre, e.isTerminal = false)
    ∧ (chatHandler r).countP (fun e => e.isTerminal) = 1 := by
  have key : ∃ pre, chatHandler r =
      pre ++ [if r.isSuccess then RelayEvent.done else RelayEvent.error r.failureMessage]
      ∧ ∀ e ∈ pre, e.isTerminal = false := by
    cases r with
    | failure m => exact ⟨[], rfl, by simp⟩
    | nonOk pm => exact ⟨[], rfl, by simp⟩
    | ok chunks mid =>
      cases mid with
      | none =>
        exact ⟨relayLoopEvents chunks, rfl, relayLoopEvents_not_terminal chunks⟩
      | some m =>
        exact ⟨relayLoopEvents chunks, rfl, relayLoopEvents_not_terminal chunks⟩
  refine ⟨key, ?_⟩
  obtain ⟨pre, heq, hpre⟩ := key
  rw [heq, List.countP_append]
  have hz : pre.countP (fun e => e.isTerminal) = 0 := by
    rw [List.countP_eq_zero]
    intro e he
    simp [hpre e he]
  rw [hz]
  split <;> simp [RelayEvent.isTerminal, List.countP_cons]

/-! ## C9: chunk-boundary frame loss -/

/-- One upstream frame delivered whole in a single chunk. -/
def chunksWhole : List String :=
  ["data: \x7b\"type\":\"content_block_delta\",\"delta\":\x7b\"type\":\"text_delta\",\"text\":\"Hi\"\x7d\x7d\n\n"]

/-- The same byte stream delivered as two chunks, the split falling inside
the frame. -/
def chunksSplit : List String :=
  ["data: \x7b\"type\":\"content_blo",
   "ck_delta\",\"delta\":\x7b\"type\":\"text_delta\",\"text\":\"Hi\"\x7d\x7d\n\n"]

/-- C9: the reader loop splits each chunk on newlines independently and
keeps no partial-line buffer, so the emitted events depend on the chunking
of the upstream byte stream: the same bytes produce the text event when the
frame sits inside one chunk and produce nothing when the frame is split
across two chunks (the first fragment fails JSON parsing, the second fails
the `data: ` test). -/
theorem chunk_boundary_frame_loss :
    String.join chunksWhole = String.join chunksSplit
    ∧ relayLoopEvents chunksWhole = [RelayEvent.text (some (Json.str "Hi"))]
    ∧ relayLoopEvents chunksSplit = [] :=
  ⟨rfl, rfl, rfl⟩

/-! ## Message Normalizer (`cleanMessages` in the chat handler) -/

/-- One structured content block as held by the UI; `text` is `none` when
the block has no `text` field. -/
structure Block where
  text : Option String
deriving DecidableEq

/-- The content of an incoming Turn: a plain string or a list of text
blocks. -/
inductive JsContent where
  | str (s : String)
  | blocks (bs : List Block)
deriving DecidableEq

/-- A Turn as the UI submits it to `POST /api/chat`; a missing `streaming`
field is the same as `false`. -/
structure InTurn where
  role : String
  content : JsContent
  streaming : Bool
deriving DecidableEq

/-- JavaScript truthiness of `msg.content`: a string is truthy iff
non-empty; an array is always truthy, even when empty. -/
def contentTruthy : JsContent → Bool
  | JsContent.str s => decide (s ≠ "")
  | JsContent.blocks _ => true

/-- The flattening inside `cleanMessages`: a string passes through, an
array of blocks is concatenated over `b.text || ""`. -/
def flattenContent : JsContent → String
  | JsContent.str s => s
  | JsContent.blocks bs => String.join (bs.map (fun b => b.text.getD ""))

/-- A Turn in the upstream wire format: flat `role`/`content`, or the
single-block structured form carrying the `cache_control: ephemeral`
cache-affinity marker. -/
inductive OutTurn where
  | flat (role : String) (content : String)
  | wrapped (text : String)
deriving DecidableEq

/-- The filter stage of `cleanMessages`:
`messages.filter((msg) => !msg.streaming && msg.content)`. -/
def keptMessages (msgs : List InTurn) : List InTurn :=
  msgs.filter (fun m => !m.streaming && contentTruthy m.content)

/-- The map stage of `cleanMessages`: wrap the entry as the marked
single-block form when it is the last entry of the filtered array and its
role is `user`, otherwise send it flat. -/
def cleanMessages (msgs : List InTurn) : List OutTurn :=
  let arr := keptMessages msgs
  arr.mapIdx (fun i m =>
    if m.role = "user" ∧ i = arr.length - 1 then OutTurn.wrapped (flattenContent m.content)
    else OutTurn.flat m.role (flattenContent m.content))

/-- The role an output Turn is sent with (the wrapped form is always
`role: "user"`). -/
def OutTurn.outRole : OutTurn → String
  | OutTurn.flat r _ => r
  | OutTurn.wrapped _ => "user"

/-- The text an output Turn carries. -/
def OutTurn.outText : OutTurn → String
  | OutTurn.flat _ c => c
  | OutTurn.wrapped t => t

/-- Whether an output Turn carries the cache-affinity marker. -/
def OutTurn.isWrapped : OutTurn → Bool
  | OutTurn.wrapped _ => true
  | OutTurn.flat _ _ => false

/-- C2 counterexample: a non-streaming Turn whose content is an empty list
of text blocks is KEPT by the normalizer (an empty array is truthy in
JavaScript, so the `msg.content` filter does not drop it), while the claim
says such a Turn is dropped. -/
theorem normalizer_empty_blocks_kept_counterexample :
    cleanMessages [⟨"assistant", JsContent.blocks [], false⟩]
        = [OutTurn.flat "assistant" ""]
    ∧ cleanMessages [⟨"assistant", JsContent.blocks [], false⟩] ≠ [] := by
  constructor
  · rfl
  · decide

/-- C2 amended: the normalizer drops exactly the Turns whose `streaming`
flag is set or whose content is JavaScript-falsy (an empty or missing
string); a Turn whose content is an empty block list is kept and flattens
to the empty string.  The kept Turns appear in their original order with
their roles and flattened texts, and the output is never longer than the
input. -/
theorem normalizer_drop_rule_amended (msgs : List InTurn) :
    (cleanMessages msgs).map (fun o => (o.outRole, o.outText))
      = (keptMessages msgs).map (fun m => (m.role, flattenContent m.content))
    ∧ (cleanMessages msgs).length ≤ msgs.length
    ∧ (∀ bs, contentTruthy (JsContent.blocks bs) = true) := by
  refine ⟨?_, ?_, fun _ => rfl⟩
  · apply List.ext_getElem
    · simp [cleanMessages, keptMessages]
    · intro n h1 h2
      simp only [cleanMessages, List.getElem_map, List.getElem_mapIdx]
      split
      · rename_i hcond
        simp [OutTurn.outRole, OutTurn.outText, hcond.1]
      · simp [OutTurn.outRole, OutTurn.outText]
  · calc (cleanMessages msgs).length = (keptMessages msgs).length := by
          simp [cleanMessages]
      _ ≤ msgs.length := List.length_filter_le _ _

/-- C3 counterexample: when the Turn sequence ends with an assistant Turn,
no Turn at all carries the cache-affinity marker — in particular the last
user Turn (here the first Turn) does not, contradicting the claim's
reading that the last user Turn always carries it. -/
theorem cache_marker_last_user_counterexample :
    cleanMessages
        [⟨"user", JsContent.str "a", false⟩, ⟨"assistant", JsContent.str "b", false⟩]
      = [OutTurn.flat "user" "a", OutTurn.flat "assistant" "b"]
    ∧ (cleanMessages
        [⟨"user", JsContent.str "a", false⟩, ⟨"assistant", JsContent.str "b", false⟩]).filter
          OutTurn.isWrapped = []
    ∧ ∃ o ∈ cleanMessages
        [⟨"user", JsContent.str "a", false⟩, ⟨"assistant", JsContent.str "b", false⟩],
        o.outRole = "user" := by
  refine ⟨rfl, rfl, ⟨OutTurn.flat "user" "a", by decide, rfl⟩⟩

/-- C3 amended: in the normalizer's output an entry carries the
cache-affinity marker iff it is the last entry and its role is `user`;
every other entry is flat.  When the output ends with a non-user Turn no
entry carries the marker (the last user Turn, sitting earlier, does not). -/
theorem cache_marker_placement (msgs : List InTurn) :
    ∀ i (hi : i < (cleanMessages msgs).length),
      ((cleanMessages msgs)[i].isWrapped = true) ↔
        (i = (cleanMessages msgs).length - 1 ∧ (cleanMessages msgs)[i].outRole = "user") := by
  intro i hi
  have hlen : (cleanMessages msgs).length = (keptMessages msgs).length := by
    simp [cleanMessages]
  have hi' : i < (keptMessages msgs).length := hlen ▸ hi
  have hget : (cleanMessages msgs)[i]
      = (if (keptMessages msgs)[i].role = "user" ∧ i = (keptMessages msgs).length - 1 then
          OutTurn.wrapped (flattenContent (keptMessages msgs)[i].content)
        else OutTurn.flat (keptMessages msgs)[i].role
          (flattenContent (keptMessages msgs)[i].content)) := by
    simp [cleanMessages, List.getElem_mapIdx]
  rw [hget, hlen]
  by_cases hrole : (keptMessages msgs)[i].role = "user" <;>
    by_cases hidx : i = (keptMessages msgs).length - 1
  · subst hidx
    simp [hrole, OutTurn.isWrapped, OutTurn.outRole]
  · simp [hrole, hidx, OutTurn.isWrapped, OutTurn.outRole]
  · subst hidx
    simp [hrole, OutTurn.isWrapped, OutTurn.outRole]
  · simp [hrole, hidx, OutTurn.isWrapped, OutTurn.outRole]

/-- C3 witness: on a one-Turn user input the single output entry carries
the marker. -/
theorem cache_marker_placement_witness :
    ((cleanMessages [⟨"user", JsContent.str "hi", false⟩]).get ⟨0, by decide⟩).isWrapped = true :=
  (cache_marker_placement [⟨"user", JsContent.str "hi", false⟩] 0 (by decide)).mpr
    ⟨by decide, rfl⟩

/-! ## Usage records and the client accumulator merge -/

/-- The token-accounting record; each field is absent (`none`) until some
frame supplies it. -/
structure Usage where
  input_tokens : Option Int
  output_tokens : Option Int
  cache_read_input_tokens : Option Int
  cache_creation_input_tokens : Option Int
deriving DecidableEq

/-- One field of the object-spread merge: a field present on the right
overwrites the left. -/
def mergeField (a b : Option Int) : Option Int :=
  match b with
  | some v => some v
  | none => a

/-- The accumulation `usageData = spread of usageData then parsed.usage`
performed for both `usage_start` and `usage` events, per field. -/
def mergeUsage (a b : Usage) : Usage :=
  ⟨mergeField a.input_tokens b.input_tokens,
   mergeField a.output_tokens b.output_tokens,
   mergeField a.cache_read_input_tokens b.cache_read_input_tokens,
   mergeField a.cache_creation_input_tokens b.cache_creation_input_tokens⟩

/-- Field-compatibility of two partial usage records: on every field at
least one side is absent or the two agree.  This is the shape of the
`usage_start` (prompt-side) and `usage` (output-side) records the state
machine accumulates, whose populated fields are disjoint. -/
def UsageCompatible (a b : Usage) : Prop :=
  (a.input_tokens = none ∨ b.input_tokens = none ∨ a.input_tokens = b.input_tokens)
  ∧ (a.output_tokens = none ∨ b.output_tokens = none ∨ a.output_tokens = b.output_tokens)
  ∧ (a.cache_read_input_tokens = none ∨ b.cache_read_input_tokens = none
      ∨ a.cache_read_input_tokens = b.cache_read_input_tokens)
  ∧ (a.cache_creation_input_tokens = none ∨ b.cache_creation_input_tokens = none
      ∨ a.cache_creation_input_tokens = b.cache_creation_input_tokens)

theorem mergeField_comm (a b : Option Int) (h : a = none ∨ b = none ∨ a = b) :
    mergeField a b = mergeField b a := by
  rcases h with h | h | h
  · subst h; cases b <;> rfl
  · subst h; cases a <;> rfl
  · subst h; rfl

/-- C4: merging two field-compatible partial Usage records (the
`usage_start` and `usage` records arriving during one completion, whose
populated fields do not conflict) by field union is order-independent. -/
theorem usage_merge_comm (a b : Usage) (h : UsageCompatible a b) :
    mergeUsage a b = mergeUsage b a := by
  obtain ⟨h1, h2, h3, h4⟩ := h
  simp only [mergeUsage]
  rw [mergeField_comm _ _ h1, mergeField_comm _ _ h2, mergeField_comm _ _ h3,
    mergeField_comm _ _ h4]

/-- C4 witness: the concrete instance of the claim — input-tokens 10 merged
with output-tokens 5 gives the same record in either order, namely both
fields populated. -/
theorem usage_merge_comm_witness :
    mergeUsage ⟨some 10, none, none, none⟩ ⟨none, some 5, none, none⟩
        = mergeUsage ⟨none, some 5, none, none⟩ ⟨some 10, none, none, none⟩
    ∧ mergeUsage ⟨some 10, none, none, none⟩ ⟨none, some 5, none, none⟩
        = ⟨some 10, some 5, none, none⟩ :=
  ⟨usage_merge_comm ⟨some 10, none, none, none⟩ ⟨none, some 5, none, none⟩
    (by exact ⟨Or.inr (Or.inl rfl), Or.inl rfl, Or.inl rfl, Or.inl rfl⟩), rfl⟩

/-! ## Client conversation state (`App.jsx`) -/

/-- A Turn as the client holds it: role, accumulated text content, the
in-flight flag, and the usage attached on `done`. -/
structure Turn where
  role : String
  content : String
  streaming : Bool
  usage : Option Usage
deriving DecidableEq

/-- JavaScript `input.trim()`: strip whitespace from both ends. -/
def trimLeading : List Char → List Char
  | [] => []
  | c :: cs => if c.isWhitespace then trimLeading cs else c :: cs

/-- Trim on both ends, front first then back (via double reversal). -/
def jsTrim (s : String) : String :=
  String.mk ((trimLeading ((trimLeading s.data).reverse)).reverse)

/-- `titleFromMessages`: the first user Turn's text cut to 40 characters,
with an ellipsis appended exactly when it was longer. -/
def titleFromMessages (ms : List Turn) : String :=
  match ms.find? (fun m => m.role == "user") with
  | none => "New conversation"
  | some first => first.content.take 40 ++ (if 40 < first.content.length then "…" else "")

/-- A conversation record as held in client state and localStorage. -/
structure Conversation where
  id : String
  title : String
  createdAt : Nat
  updatedAt : Nat
  messages : List Turn
  system : String
  model : String
deriving DecidableEq

/-- `renameConvo`: set the title of a conversation from the list item's
rename box; the source touches no other field. -/
def renameConvo (c : Conversation) (title : String) : Conversation :=
  { c with title := title }

/-- The existing-conversation branch of `updateActiveConvo`: apply the
updater, then stamp `updatedAt` with the current time. -/
def updateActiveConvo (c : Conversation) (updater : Conversation → Conversation) (now : Nat) :
    Conversation :=
  { updater c with updatedAt := now }

/-- The user message constructed in `sendMessage`. -/
def userTurn (content : String) : Turn := ⟨"user", content, false, none⟩

/-- The streaming assistant placeholder appended in `sendMessage`. -/
def placeholderTurn : Turn := ⟨"assistant", "", true, none⟩

/-- The message-list effect of `sendMessage`'s optimistic update: append
the trimmed user message, then the streaming placeholder. -/
def sendMsgs (ms : List Turn) (input : String) : List Turn :=
  (ms ++ [userTurn (jsTrim input)]) ++ [placeholderTurn]

/-- The conversation-level optimistic update in `sendMessage`: append both
Turns, derive the title from the new messages when the conversation was
empty, and stamp `updatedAt`. -/
def sendStart (c : Conversation) (input : String) (now : Nat) : Conversation :=
  let newMessages := c.messages ++ [userTurn (jsTrim input)]
  { c with
    messages := newMessages ++ [placeholderTurn],
    title := if c.messages.length = 0 then titleFromMessages newMessages else c.title,
    updatedAt := now }

/-- The in-place update of the trailing entry,
`msgs[msgs.length - 1] = t` on a copied array (a no-op on an empty list,
where the write lands on index -1). -/
def setLast (ms : List Turn) (t : Turn) : List Turn :=
  if ms = [] then ms else ms.dropLast ++ [t]

/-- The `text`-event update: the trailing Turn becomes the assistant Turn
carrying the accumulated `fullText`, still streaming. -/
def applyTextMsgs (ms : List Turn) (fullText : String) : List Turn :=
  setLast ms ⟨"assistant", fullText, true, none⟩

/-- The `done`-event update: the trailing Turn is finalized with the
accumulated text and usage, streaming cleared. -/
def applyDoneMsgs (ms : List Turn) (fullText : String) (u : Usage) : List Turn :=
  setLast ms ⟨"assistant", fullText, false, some u⟩

/-- The `error`-event update (also the catch branch for a thrown
non-abort error): the trailing Turn becomes the error annotation,
streaming cleared. -/
def applyErrorMsgs (ms : List Turn) (err : String) : List Turn :=
  setLast ms ⟨"assistant", "⚠️ Error: " ++ err, false, none⟩

/-- The `done`-event update at conversation level, which also stamps
`updatedAt`. -/
def applyDoneConvo (c : Conversation) (fullText : String) (u : Usage) (now : Nat) :
    Conversation :=
  { c with messages := applyDoneMsgs c.messages fullText u, updatedAt := now }

/-- `stopStreaming`'s message-list effect: clear `streaming` on the
trailing Turn when set, leaving every other field and entry alone. -/
def clearLastStreaming (ms : List Turn) : List Turn :=
  match ms.getLast? with
  | none => ms
  | some last =>
    if last.streaming then ms.dropLast ++ [{ last with streaming := false }] else ms

/-- `stopStreaming` on the state it touches: the active conversation's
message list and the UI streaming flag (set to false). -/
def stopStreamingState (s : List Turn × Bool) : List Turn × Bool :=
  (clearLastStreaming s.1, false)

/-- C7: cancellation is idempotent and pauses in place — a second
`stopStreaming` leaves the state exactly where the first put it, and
cancellation changes no Turn's content, role or usage and adds no Turn
(hence no error Turn). -/
theorem cancel_idempotent_paused_in_place (ms : List Turn) (flag : Bool) :
    stopStreamingState (stopStreamingState (ms, flag)) = stopStreamingState (ms, flag)
    ∧ (clearLastStreaming ms).map (fun t => t.content) = ms.map (fun t => t.content)
    ∧ (clearLastStreaming ms).map (fun t => t.role) = ms.map (fun t => t.role)
    ∧ (clearLastStreaming ms).map (fun t => t.usage) = ms.map (fun t => t.usage)
    ∧ (clearLastStreaming ms).length = ms.length := by
  rcases List.eq_nil_or_concat ms with hnil | ⟨l, a, hcat⟩
  · subst hnil
    exact ⟨rfl, rfl, rfl, rfl, rfl⟩
  · rw [List.concat_eq_append] at hcat
    subst hcat
    by_cases hs : a.streaming
    · have h1 : clearLastStreaming (l ++ [a]) = l ++ [{ a with streaming := false }] := by
        simp [clearLastStreaming, List.getLast?_concat, hs, List.dropLast_concat]
      have h2 : clearLastStreaming (l ++ [{ a with streaming := false }])
          = l ++ [{ a with streaming := false }] := by
        simp [clearLastStreaming, List.getLast?_concat]
      refine ⟨?_, ?_, ?_, ?_, ?_⟩ <;> simp [stopStreamingState, h1, h2]
    · have h1 : clearLastStreaming (l ++ [a]) = l ++ [a] := by
        simp [clearLastStreaming, List.getLast?_concat, hs]
      refine ⟨?_, ?_, ?_, ?_, ?_⟩ <;> simp [stopStreamingState, h1]

/-- C8: title auto-generation.  A send into an empty conversation sets the
title to the trimmed message text cut to 40 characters, with an ellipsis
appended exactly when the text is longer than 40 characters; a send into a
non-empty conversation leaves the title unchanged. -/
theorem title_autogeneration (c : Conversation) (input : String) (now : Nat) :
    (c.messages = [] →
      (sendStart c input now).title =
        (jsTrim input).take 40 ++ (if 40 < (jsTrim input).length then "…" else ""))
    ∧ (c.messages ≠ [] → (sendStart c input now).title = c.title) := by
  constructor
  · intro h
    simp [sendStart, h, titleFromMessages, List.find?, userTurn]
  · intro h
    have : c.messages.length ≠ 0 := by
      simpa [List.length_eq_zero] using h
    simp [sendStart, this]

/-- The 45-character message of end-to-end scenario B. -/
def msg45 : String := "aaaaaaaaaaaaaaaaaaaaaaaaaaaaaaaaaaaaaaaaaaaaa"

/-- An empty conversation to send into. -/
def emptyConvo : Conversation :=
  ⟨"1", "New conversation", 0, 0, [], "", "claude-opus-4-5-20251101"⟩

set_option maxRecDepth 8192 in
/-- C8 witness: a 45-character first message yields its first 40
characters plus an ellipsis; a 2-character first message yields itself. -/
theorem title_autogeneration_witness :
    (sendStart emptyConvo msg45 0).title = "aaaaaaaaaaaaaaaaaaaaaaaaaaaaaaaaaaaaaaaa…"
    ∧ (sendStart emptyConvo "hi" 0).title = "hi" := by
  constructor
  · rw [(title_autogeneration emptyConvo msg45 0).1 rfl]
    decide
  · rw [(title_autogeneration emptyConvo "hi" 0).1 rfl]
    decide

/-- C6 counterexample: renaming from the conversation list is a metadata
edit that does not bump `updatedAt` — at current time 200 the renamed
conversation still carries its old stamp 100. -/
theorem rename_updatedAt_counterexample :
    (renameConvo ⟨"1", "Old", 0, 100, [], "", "m"⟩ "x").title = "x"
    ∧ (renameConvo ⟨"1", "Old", 0, 100, [], "", "m"⟩ "x").updatedAt = 100
    ∧ (renameConvo ⟨"1", "Old", 0, 100, [], "", "m"⟩ "x").updatedAt ≠ 200 := by
  refine ⟨rfl, rfl, by decide⟩

/-- C6 amended: `updatedAt` is monotonically non-decreasing under a
non-decreasing clock; Turn appends (`sendStart`, the `done` update) and
metadata edits through `updateActiveConvo` stamp it with the current time,
while `renameConvo` (renaming from the conversation list) leaves it
unchanged. -/
theorem updatedAt_bump_behavior (c : Conversation) (f : Conversation → Conversation)
    (input t full : String) (u : Usage) (now : Nat) (hnow : c.updatedAt ≤ now) :
    (updateActiveConvo c f now).updatedAt = now
    ∧ (sendStart c input now).updatedAt = now
    ∧ (applyDoneConvo c full u now).updatedAt = now
    ∧ (renameConvo c t).updatedAt = c.updatedAt
    ∧ c.updatedAt ≤ (updateActiveConvo c f now).updatedAt
    ∧ c.updatedAt ≤ (sendStart c input now).updatedAt
    ∧ c.updatedAt ≤ (applyDoneConvo c full u now).updatedAt
    ∧ c.updatedAt ≤ (renameConvo c t).updatedAt := by
  refine ⟨rfl, rfl, rfl, rfl, hnow, hnow, hnow, le_refl _⟩

/-- C6 witness: the bump-and-monotonicity facts at a concrete conversation
and clock. -/
theorem updatedAt_bump_behavior_witness :
    (updateActiveConvo emptyConvo (fun c => { c with system := "be brief" }) 7).updatedAt = 7
    ∧ (renameConvo emptyConvo "t").updatedAt = emptyConvo.updatedAt :=
  ⟨(updatedAt_bump_behavior emptyConvo (fun c => { c with system := "be brief" })
      "" "t" "" ⟨none, none, none, none⟩ 7 (by decide)).1,
   (updatedAt_bump_behavior emptyConvo (fun c => { c with system := "be brief" })
      "" "t" "" ⟨none, none, none, none⟩ 7 (by decide)).2.2.2.1⟩

/-! ## Reachable client states for one conversation

A conversation starts empty and idle.  `sendMessage` is guarded by the UI
streaming flag (`if (!input.trim() || streaming) return`), so a send only
happens while the flag is clear; events of the in-flight stream apply
while the flag is set, and JavaScript's run-to-completion scheduling means
no event of a request applies after its abort (the abort makes the next
`reader.read()` throw before another chunk is decoded).  The third state
component records whether the current stream has delivered its terminal
event (the relay's terminal-event law makes `done`/`error` the last event
of a stream); a mid-stream transport failure surfaces through the catch
branch instead (`catchErr`).

Crucially, `setStreaming(false)` runs when the reader loop exits for any
reason: the source does not check that a terminal event was applied.  The
relay writes its terminal frame before ending the response, but the
client's own reader splits each decoded chunk on newlines with no
partial-line buffer, so a terminal frame split across two reads is
silently dropped and the loop exits cleanly without ever applying a
terminal event.  `endStream` therefore clears the flag from any `term`
value. -/
inductive Reach : List Turn → Bool → Bool → Prop where
  | init : Reach [] false false
  | send (ms : List Turn) (input : String) (term : Bool) :
      Reach ms false term → Reach (sendMsgs ms input) true false
  | text (ms : List Turn) (full : String) :
      Reach ms true false → Reach (applyTextMsgs ms full) true false
  | doneEv (ms : List Turn) (full : String) (u : Usage) :
      Reach ms true false → Reach (applyDoneMsgs ms full u) true true
  | errorEv (ms : List Turn) (e : String) :
      Reach ms true false → Reach (applyErrorMsgs ms e) true true
  | endStream (ms : List Turn) (term : Bool) :
      Reach ms true term → Reach ms false term
  | catchErr (ms : List Turn) (e : String) (term : Bool) :
      Reach ms true term → Reach (applyErrorMsgs ms e) false true
  | cancel (ms : List Turn) (flag term : Bool) :
      Reach ms flag term → Reach (clearLastStreaming ms) false term

/-- The terminal-delivering executions: the sub-system of `Reach` in which
every stream that ends cleanly has delivered, and the client has applied,
its terminal event before the loop exits (`endStream` requires
`term = true`).  This is where every relay frame reaches the client
intact — no terminal frame lost to the chunk splitting — or the stream
instead ends through the catch branch or a cancel. -/
inductive ReachSafe : List Turn → Bool → Bool → Prop where
  | init : ReachSafe [] false false
  | send (ms : List Turn) (input : String) (term : Bool) :
      ReachSafe ms false term → ReachSafe (sendMsgs ms input) true false
  | text (ms : List Turn) (full : String) :
      ReachSafe ms true false → ReachSafe (applyTextMsgs ms full) true false
  | doneEv (ms : List Turn) (full : String) (u : Usage) :
      ReachSafe ms true false → ReachSafe (applyDoneMsgs ms full u) true true
  | errorEv (ms : List Turn) (e : String) :
      ReachSafe ms true false → ReachSafe (applyErrorMsgs ms e) true true
  | endStream (ms : List Turn) :
      ReachSafe ms true true → ReachSafe ms false true
  | catchErr (ms : List Turn) (e : String) (term : Bool) :
      ReachSafe ms true term → ReachSafe (applyErrorMsgs ms e) false true
  | cancel (ms : List Turn) (flag term : Bool) :
      ReachSafe ms flag term → ReachSafe (clearLastStreaming ms) false term

/-- Every terminal-delivering execution is an execution. -/
theorem reachSafe_reach (ms : List Turn) (flag term : Bool) (h : ReachSafe ms flag term) :
    Reach ms flag term := by
  induction h with
  | init => exact Reach.init
  | send ms input term hr ih => exact Reach.send ms input term ih
  | text ms full hr ih => exact Reach.text ms full ih
  | doneEv ms full u hr ih => exact Reach.doneEv ms full u ih
  | errorEv ms e hr ih => exact Reach.errorEv ms e ih
  | endStream ms hr ih => exact Reach.endStream ms true ih
  | catchErr ms e term hr ih => exact Reach.catchErr ms e term ih
  | cancel ms flag term hr ih => exact Reach.cancel ms flag term ih

theorem setLast_cases (ms : List Turn) (t : Turn) :
    (ms = [] ∧ setLast ms t = []) ∨ setLast ms t = ms.dropLast ++ [t] := by
  by_cases h : ms = []
  · exact Or.inl ⟨h, by simp [setLast, h]⟩
  · exact Or.inr (by simp [setLast, h])

theorem clearLastStreaming_cases (ms : List Turn) :
    (ms = [] ∧ clearLastStreaming ms = [])
    ∨ (∃ l a, ms = l ++ [a] ∧ clearLastStreaming ms
        = l ++ [if a.streaming then { a with streaming := false } else a]) := by
  rcases List.eq_nil_or_concat ms with h | ⟨l, a, h⟩
  · exact Or.inl ⟨h, by simp [clearLastStreaming, h]⟩
  · rw [List.concat_eq_append] at h
    subst h
    refine Or.inr ⟨l, a, rfl, ?_⟩
    by_cases hs : a.streaming <;>
      simp [clearLastStreaming, List.getLast?_concat, hs, List.dropLast_concat]

/-- The strengthened induction invariant over terminal-delivering
executions: every non-trailing Turn is settled, and when the conversation
is idle or its stream already delivered a terminal event, every Turn is
settled. -/
theorem reach_inv (ms : List Turn) (flag term : Bool) (h : ReachSafe ms flag term) :
    (∀ t ∈ ms.dropLast, t.streaming = false)
    ∧ ((flag = false ∨ term = true) → ∀ t ∈ ms, t.streaming = false) := by
  induction h with
  | init => exact ⟨by simp, by simp⟩
  | send ms input term hr ih =>
    have hall : ∀ t ∈ ms, t.streaming = false := ih.2 (Or.inl rfl)
    constructor
    · rw [sendMsgs, List.dropLast_concat]
      intro t ht
      rcases List.mem_append.mp ht with h1 | h2
      · exact hall t h1
      · simp only [List.mem_singleton] at h2
        subst h2; rfl
    · rintro (hc | hc) <;> simp at hc
  | text ms full hr ih =>
    rcases setLast_cases ms ⟨"assistant", full, true, none⟩ with ⟨hnil, hset⟩ | hset
    · rw [applyTextMsgs, hset]
      exact ⟨by simp, by simp⟩
    · rw [applyTextMsgs, hset]
      constructor
      · rw [List.dropLast_concat]; exact ih.1
      · rintro (hc | hc) <;> simp at hc
  | doneEv ms full u hr ih =>
    rcases setLast_cases ms ⟨"assistant", full, false, some u⟩ with ⟨hnil, hset⟩ | hset
    · rw [applyDoneMsgs, hset]
      exact ⟨by simp, by simp⟩
    · rw [applyDoneMsgs, hset]
      constructor
      · rw [List.dropLast_concat]; exact ih.1
      · intro _ t ht
        rcases List.mem_append.mp ht with h1 | h2
        · exact ih.1 t h1
        · simp only [List.mem_singleton] at h2
          subst h2; rfl
  | errorEv ms e hr ih =>
    rcases setLast_cases ms ⟨"assistant", "⚠️ Error: " ++ e, false, none⟩ with ⟨hnil, hset⟩ | hset
    · rw [applyErrorMsgs, hset]
      exact ⟨by simp, by simp⟩
    · rw [applyErrorMsgs, hset]
      constructor
      · rw [List.dropLast_concat]; exact ih.1
      · intro _ t ht
        rcases List.mem_append.mp ht with h1 | h2
        · exact ih.1 t h1
        · simp only [List.mem_singleton] at h2
          subst h2; rfl
  | endStream ms hr ih =>
    exact ⟨ih.1, fun _ => ih.2 (Or.inr rfl)⟩
  | catchErr ms e term hr ih =>
    rcases setLast_cases ms ⟨"assistant", "⚠️ Error: " ++ e, false, none⟩ with ⟨hnil, hset⟩ | hset
    · rw [applyErrorMsgs, hset]
      exact ⟨by simp, by simp⟩
    · rw [applyErrorMsgs, hset]
      constructor
      · rw [List.dropLast_concat]; exact ih.1
      · intro _ t ht
        rcases List.mem_append.mp ht with h1 | h2
        · exact ih.1 t h1
        · simp only [List.mem_singleton] at h2
          subst h2; rfl
  | cancel ms flag term hr ih =>
    rcases clearLastStreaming_cases ms with ⟨hnil, hclear⟩ | ⟨l, a, hms, hclear⟩
    · rw [hclear]
      exact ⟨by simp, by simp⟩
    · rw [hclear]
      have hl : ∀ t ∈ l, t.streaming = false := by
        intro t ht
        apply ih.1
        rw [hms, List.dropLast_concat]
        exact ht
      constructor
      · rw [List.dropLast_concat]; exact hl
      · intro _ t ht
        rcases List.mem_append.mp ht with h1 | h2
        · exact hl t h1
        · simp only [List.mem_singleton] at h2
          subst h2
          by_cases hs : a.streaming <;> simp [hs]

/-- C5 counterexample: the streaming-turn invariant fails on a reachable
state of the faithful system.  A send opens a stream; its terminal frame
is lost to the unbuffered chunk splitting, so the reader loop exits
cleanly with no terminal event applied (`endStream` at `term = false`) and
the trailing placeholder keeps `streaming = true` while the UI flag
clears; the next send then passes its guard and appends a second streaming
placeholder.  The resulting conversation has two streaming Turns, and the
first of them (index 1 of 4) is not the last Turn. -/
theorem streaming_turn_invariant_counterexample :
    Reach (sendMsgs (sendMsgs [] "hi") "yo") true false
    ∧ ((sendMsgs (sendMsgs [] "hi") "yo").filter (fun t => t.streaming)).length = 2
    ∧ ((sendMsgs (sendMsgs [] "hi") "yo").get ⟨1, by decide⟩).streaming = true
    ∧ 1 ≠ (sendMsgs (sendMsgs [] "hi") "yo").length - 1 := by
  refine ⟨?_, by decide, by decide, by decide⟩
  exact Reach.send (sendMsgs [] "hi") "yo" false
    (Reach.endStream (sendMsgs [] "hi") false
      (Reach.send [] "hi" false Reach.init))

/-- C5 amended: in every reachable conversation state of a
terminal-delivering execution — one in which each stream that ends cleanly
has delivered its terminal event to the client (no terminal frame lost to
the chunk splitting), the other streams ending through the catch branch or
a cancel — at most one Turn has its streaming flag set, and any Turn with
the flag set is the last Turn of the conversation. -/
theorem streaming_turn_invariant (ms : List Turn) (flag term : Bool)
    (h : ReachSafe ms flag term) :
    (ms.filter (fun t => t.streaming)).length ≤ 1
    ∧ ∀ i (hi : i < ms.length), ms[i].streaming = true → i = ms.length - 1 := by
  have hdrop : ∀ t ∈ ms.dropLast, t.streaming = false := (reach_inv ms flag term h).1
  constructor
  · rcases List.eq_nil_or_concat ms with hnil | ⟨l, a, hcat⟩
    · subst hnil; simp
    · rw [List.concat_eq_append] at hcat
      subst hcat
      have hl : l.filter (fun t => t.streaming) = [] := by
        rw [List.filter_eq_nil_iff]
        intro t ht
        have := hdrop t (by rw [List.dropLast_concat]; exact ht)
        simp [this]
      rw [List.filter_append, hl]
      simp only [List.nil_append]
      cases hfa : List.filter (fun t => t.streaming) [a] <;>
        simp_all [List.filter]
      split at hfa <;> simp_all
  · intro i hi hstream
    by_contra hne
    have hlt : i < ms.length - 1 := by omega
    have hdl : i < ms.dropLast.length := by
      simp only [List.length_dropLast]; exact hlt
    have heq : ms.dropLast[i] = ms[i] := List.getElem_dropLast ms i hdl
    have hmem : ms.dropLast[i] ∈ ms.dropLast := List.getElem_mem hdl
    have := hdrop _ hmem
    rw [heq, hstream] at this
    exact absurd this (by simp)

/-- C5 witness: after a send into an empty idle conversation the reachable
state has its (streaming) placeholder at the final index. -/
theorem streaming_turn_invariant_witness :
    1 = (sendMsgs [] "hi").length - 1 :=
  (streaming_turn_invariant (sendMsgs [] "hi") true false
    (ReachSafe.send [] "hi" false ReachSafe.init)).2 1 (by decide) (by decide)

/-! ## Request defaults in `POST /api/chat` -/

/-- JavaScript `v || dflt` for an optional string field: the default
replaces a missing value and the falsy empty string. -/
def jsOrStr (v : Option String) (dflt : String) : String :=
  match v with
  | some s => if s = "" then dflt else s
  | none => dflt

/-- JavaScript `v || dflt` for an optional numeric field: the default
replaces a missing value and the falsy 0. -/
def jsOrInt (v : Option Int) (dflt : Int) : Int :=
  match v with
  | some n => if n = 0 then dflt else n
  | none => dflt

/-- The fields of the request body that feed the upstream `requestBody`
defaults (`none` models an absent or null field). -/
structure ChatRequestBody where
  model : Option String
  temperature : Option ℚ
  max_tokens : Option Int

/-- `model: model || "claude-opus-4-5-20251101"`. -/
def requestModel (r : ChatRequestBody) : String :=
  jsOrStr r.model "claude-opus-4-5-20251101"

/-- `max_tokens: max_tokens || 32000`. -/
def requestMaxTokens (r : ChatRequestBody) : Int :=
  jsOrInt r.max_tokens 32000

/-- `temperature: temperature ?? 1` — nullish coalescing, which keeps an
explicit 0. -/
def requestTemperature (r : ChatRequestBody) : ℚ :=
  r.temperature.getD 1

/-- C10: asymmetric default handling.  The caller's temperature is used
whenever present — an explicit 0 included — and defaults to 1 only when
absent; the model and max_tokens fall back to their defaults on any falsy
value, so an explicit max_tokens of 0 or an empty-string model is silently
replaced, while non-falsy values pass through. -/
theorem chat_defaults_asymmetry (r : ChatRequestBody) :
    (∀ q : ℚ, r.temperature = some q → requestTemperature r = q)
    ∧ (r.temperature = none → requestTemperature r = 1)
    ∧ (r.max_tokens = some 0 → requestMaxTokens r = 32000)
    ∧ (∀ n : Int, r.max_tokens = some n → n ≠ 0 → requestMaxTokens r = n)
    ∧ (r.max_tokens = none → requestMaxTokens r = 32000)
    ∧ (r.model = some "" → requestModel r = "claude-opus-4-5-20251101")
    ∧ (∀ s : String, r.model = some s → s ≠ "" → requestModel r = s)
    ∧ (r.model = none → requestModel r = "claude-opus-4-5-20251101") := by
  refine ⟨?_, ?_, ?_, ?_, ?_, ?_, ?_, ?_⟩
  · intro q hq; simp [requestTemperature, hq]
  · intro hq; simp [requestTemperature, hq]
  · intro hm; simp [requestMaxTokens, jsOrInt, hm]
  · intro n hm hn; simp [requestMaxTokens, jsOrInt, hm, hn]
  · intro hm; simp [requestMaxTokens, jsOrInt, hm]
  · intro hm; simp [requestModel, jsOrStr, hm]
  · intro s hm hs; simp [requestModel, jsOrStr, hm, hs]
  · intro hm; simp [requestModel, jsOrStr, hm]

/-- C10 witness: a request with empty-string model, temperature 0 and
max_tokens 0 keeps its temperature 0 but has model and max_tokens replaced
by the defaults. -/
theorem chat_defaults_asymmetry_witness :
    requestTemperature ⟨some "", some 0, some 0⟩ = 0
    ∧ requestMaxTokens ⟨some "", some 0, some 0⟩ = 32000
    ∧ requestModel ⟨some "", some 0, some 0⟩ = "claude-opus-4-5-20251101" :=
  ⟨(chat_defaults_asymmetry ⟨some "", some 0, some 0⟩).1 0 rfl,
   (chat_defaults_asymmetry ⟨some "", some 0, some 0⟩).2.2.1 rfl,
   (chat_defaults_asymmetry ⟨some "", some 0, some 0⟩).2.2.2.2.2.1 rfl⟩
